import Mathlib

/-!
Verification development for `security-scan.py`: an AST-based security
scanner for Python files and a regex-based scanner for JS/TS files.

The embedding follows the source file section by section:
* `Finding` / severity counts mirror the `Finding` dataclass and
  `ScanResults.summary`.
* `PyExpr` / `PyStmt` embed the syntax-node shapes the visitor inspects
  (`ast.Name`, `ast.Attribute`, `ast.Call`, `ast.Constant`,
  `ast.JoinedStr`, keyword arguments); `resolveName` embeds
  `SecurityVisitor._resolve_name`, `callFindings` the rule block of
  `SecurityVisitor.visit_Call`, and `exprFindings` the recursive
  `generic_visit` traversal (pre-order: a call's own findings precede
  findings from its children, which are visited in field order
  func, args, keywords).
* The regex `HARDCODED_SECRET_RE` and the two `JS_DANGEROUS_PATTERNS`
  are embedded as executable character-list matchers.  Each bounded
  regex construct in those patterns (`\s*`, `[^"']{4,}`) is followed by
  a character disjoint from the repeated class (`=`, a quote), so the
  backtracking search has the same success condition as the greedy
  deterministic matcher written here; `searchPos` tries every start
  position exactly as `re.search` does.
* `scanFile` / `scanDirectory` embed `scan_python_file`,
  `scan_js_ts_file` and `scan_directory` (file contents are given as a
  parse outcome plus the list of physical lines), and `runMain` embeds
  the exit-code / report logic of `main`.
-/

/-- Embeds the `Finding` dataclass: file path, 1-based line, severity
string, description. -/
structure Finding where
  file : String
  line : Nat
  severity : String
  description : String
deriving DecidableEq

/-- Embeds `ScanResults.summary`: the number of findings carrying a given
severity string (the dict starts zero-filled, so the count is exactly a
`countP`). -/
def summaryCount (fs : List Finding) (sev : String) : Nat :=
  fs.countP (fun f => f.severity = sev)

/-- The constant values `ast.Constant` nodes can carry, as far as the
scanner inspects them (`kw.value.value is True` only holds for the
boolean constant `True`). -/
inductive PyConst where
  | bool (b : Bool)
  | int (n : Int)
  | str (s : String)
  | noneVal
  | ellipsisVal
deriving DecidableEq

/-- The expression-node shapes of the Python AST that the visitor
distinguishes.  `call` carries its `lineno`; `joinedStr` is an f-string
(`ast.JoinedStr`) with its embedded sub-expressions; `subscript` and
`binOp` stand for the remaining compound shapes the visitor only
recurses through. -/
inductive PyExpr where
  | name (id : String)
  | const (v : PyConst)
  | attribute (value : PyExpr) (attr : String)
  | call (func : PyExpr) (args : List PyExpr)
      (keywords : List (Option String × PyExpr)) (lineno : Nat)
  | joinedStr (values : List PyExpr)
  | subscript (value : PyExpr) (index : PyExpr)
  | binOp (left : PyExpr) (right : PyExpr)

/-- Statement shapes of a module body. -/
inductive PyStmt where
  | exprStmt (value : PyExpr)
  | assign (target : PyExpr) (value : PyExpr)

/-- Embeds the `DANGEROUS_CALLS` table: name, severity, description. -/
def DANGEROUS_CALLS : List (String × String × String) :=
  [("eval", "HIGH", "Use of eval() can execute arbitrary code"),
   ("exec", "HIGH", "Use of exec() can execute arbitrary code"),
   ("os.system", "HIGH", "os.system() is vulnerable to shell injection"),
   ("pickle.loads", "HIGH", "pickle.loads() can deserialize malicious objects"),
   ("pickle.load", "HIGH", "pickle.load() can deserialize malicious objects")]

/-- Embeds `name in DANGEROUS_CALLS` / `DANGEROUS_CALLS[name]`. -/
def lookupDanger (n : String) : Option (String × String) :=
  (DANGEROUS_CALLS.find? (fun e => e.1 == n)).map (fun e => e.2)

/-- The tuple `("subprocess.call", "subprocess.run", "subprocess.Popen")`
tested by the shell-injection rule. -/
def subprocessNames : List String :=
  ["subprocess.call", "subprocess.run", "subprocess.Popen"]

/-- The `while isinstance(node, ast.Attribute)` loop of `_resolve_name`:
append each `attr` (outermost first) to `parts`, stop at the chain root;
a `Name` root contributes its identifier, any other root contributes
nothing. -/
def walkChain (e : PyExpr) (parts : List String) : List String :=
  match e with
  | .attribute v a => walkChain v (parts ++ [a])
  | .name id => parts ++ [id]
  | _ => parts

/-- Embeds `".".join(...)`. -/
def joinDotted : List String → String
  | [] => ""
  | [p] => p
  | p :: ps => p ++ "." ++ joinDotted ps

/-- Embeds `SecurityVisitor._resolve_name`: a bare identifier resolves
to itself, an attribute chain resolves to the dot-join of the reversed
collected parts, anything else resolves to `""`. -/
def resolveName : PyExpr → String
  | .name id => id
  | .attribute v a => joinDotted (walkChain v [a]).reverse
  | _ => ""

/-- Builds the attribute chain `root.a₁.a₂...aₙ` (used to state theorems
about `resolveName`; `buildAttr r [a, b]` is the node for `r.a.b`). -/
def buildAttr (root : PyExpr) : List String → PyExpr
  | [] => root
  | a :: rest => buildAttr (.attribute root a) rest

/-- True of chain roots that are neither an identifier nor a further
attribute access (a call result, a subscript, a literal, ...). -/
def nonChainRoot : PyExpr → Bool
  | .name _ => false
  | .attribute _ _ => false
  | _ => true

/-- Embeds the keyword test of the shell-injection rule:
`kw.arg == "shell" and isinstance(kw.value, ast.Constant) and
kw.value.value is True`. -/
def isShellTrueKw (kw : Option String × PyExpr) : Bool :=
  decide (kw.1 = some "shell") &&
    (match kw.2 with
     | .const (.bool true) => true
     | _ => false)

/-- The rule block of `SecurityVisitor.visit_Call`, i.e. the findings a
single call node itself contributes, in source order: dangerous-call
table match, then one finding per `shell=True` keyword on a
process-spawning call, then the unparameterized-SQL rule. -/
def callFindings (file : String) (func : PyExpr) (args : List PyExpr)
    (kws : List (Option String × PyExpr)) (lineno : Nat) : List Finding :=
  let name := resolveName func
  (match lookupDanger name with
   | some (sev, desc) => [⟨file, lineno, sev, desc⟩]
   | none => []) ++
  ((if name ∈ subprocessNames then
      kws.filterMap (fun kw =>
        if isShellTrueKw kw then
          some ⟨file, lineno, "HIGH",
            name ++ "() called with shell=True -- risk of shell injection"⟩
        else none)
    else []) ++
   (if name = "text" ∨ name = "sqlalchemy.text" then
      match args with
      | .joinedStr _ :: _ =>
        [⟨file, lineno, "HIGH",
          "SQL text() with f-string -- use bind parameters instead"⟩]
      | _ => []
    else []))

mutual

/-- The full visitor traversal on one expression: every call node
reachable in the tree contributes its `callFindings`, then its children
are visited in field order (`func`, `args`, `keywords`). -/
def exprFindings (file : String) : PyExpr → List Finding
  | .name _ => []
  | .const _ => []
  | .attribute v _ => exprFindings file v
  | .call f args kws line =>
      callFindings file f args kws line ++
        (exprFindings file f ++
          (exprListFindings file args ++ kwListFindings file kws))
  | .joinedStr vs => exprListFindings file vs
  | .subscript v i => exprFindings file v ++ exprFindings file i
  | .binOp l r => exprFindings file l ++ exprFindings file r

/-- Traversal of a list of child expressions, left to right. -/
def exprListFindings (file : String) : List PyExpr → List Finding
  | [] => []
  | e :: es => exprFindings file e ++ exprListFindings file es

/-- Traversal of the keyword arguments (the visitor descends into each
keyword's value). -/
def kwListFindings (file : String) : List (Option String × PyExpr) → List Finding
  | [] => []
  | (_, v) :: ks => exprFindings file v ++ kwListFindings file ks

end

/-- Traversal of one statement. -/
def stmtFindings (file : String) : PyStmt → List Finding
  | .exprStmt e => exprFindings file e
  | .assign t v => exprFindings file t ++ exprFindings file v

/-- The AST findings of a whole parsed module
(`SecurityVisitor(filepath, results).visit(tree)`). -/
def moduleFindings (file : String) (body : List PyStmt) : List Finding :=
  body.flatMap (stmtFindings file)

/-- Python `\s` on the characters that can occur inside one physical
line (the scanner feeds `re.search` the pieces of `str.splitlines`). -/
def isPySpace (c : Char) : Bool :=
  c = ' ' || c = '\t' || c = '\n' || c = '\r' || c = '\x0b' || c = '\x0c'

/-- The character class `["']`. -/
def isQuoteCh (c : Char) : Bool :=
  c = '"' || c.toNat = 39

/-- Case-insensitive literal match at the current position: consume the
pattern, return the remaining input (the `re.IGNORECASE` flag on
`HARDCODED_SECRET_RE`). -/
def ciMatchAt : List Char → List Char → Option (List Char)
  | [], hay => some hay
  | _ :: _, [] => none
  | p :: ps, c :: cs =>
      if p.toLower = c.toLower then ciMatchAt ps cs else none

/-- Case-sensitive literal match at the current position. -/
def matchAt : List Char → List Char → Option (List Char)
  | [], hay => some hay
  | _ :: _, [] => none
  | p :: ps, c :: cs => if p = c then matchAt ps cs else none

/-- Pairwise case-insensitive equality of two character lists (used to
state which identifier spellings the secret pattern accepts). -/
def ciEqList : List Char → List Char → Bool
  | [], [] => true
  | a :: as, b :: bs => (a.toLower = b.toLower) && ciEqList as bs
  | _, _ => false

/-- The alternation `(?:API_KEY|SECRET|PASSWORD|TOKEN|PRIVATE_KEY)`. -/
def SECRET_KEYWORDS : List (List Char) :=
  ["API_KEY".data, "SECRET".data, "PASSWORD".data, "TOKEN".data,
   "PRIVATE_KEY".data]

/-- The tail `[^"']{4,}["']` of `HARDCODED_SECRET_RE` after the opening
quote: the run of non-quote characters is taken greedily, which is
equivalent to the backtracking search because the character required
after it is a quote and so cannot belong to the run. -/
def secretBody (r : List Char) : Bool :=
  decide (4 ≤ (r.takeWhile (fun ch => !(isQuoteCh ch))).length) &&
    (match r.dropWhile (fun ch => !(isQuoteCh ch)) with
     | [] => false
     | e :: _ => isQuoteCh e)

/-- The tail `\s*["'][^"']{4,}["']` after the `=`: the `\s*` run is taken
greedily, equivalent to backtracking because a quote is not `\s`. -/
def secretAfterEq (r : List Char) : Bool :=
  match r.dropWhile isPySpace with
  | [] => false
  | d :: r3 => if isQuoteCh d then secretBody r3 else false

/-- The tail `\s*=\s*["'][^"']{4,}["']` after the keyword: the `\s*` run
is taken greedily, equivalent to backtracking because `=` is not `\s`. -/
def secretAfterKw (r : List Char) : Bool :=
  match r.dropWhile isPySpace with
  | [] => false
  | c :: r2 => if c = '=' then secretAfterEq r2 else false

/-- `HARDCODED_SECRET_RE` anchored at the current position: one of the
keywords (case-insensitive), then `\s*=\s*["'][^"']{4,}["']`. -/
def secretMatchAt (l : List Char) : Bool :=
  SECRET_KEYWORDS.any fun kw =>
    match ciMatchAt kw l with
    | none => false
    | some r1 => secretAfterKw r1

/-- `re.search`: try the anchored matcher at every start position,
including the empty suffix at the end of the line. -/
def searchPos (p : List Char → Bool) : List Char → Bool
  | [] => p []
  | c :: rest => p (c :: rest) || searchPos p rest

/-- `HARDCODED_SECRET_RE.search(line)` as a Boolean. -/
def secretSearch (line : List Char) : Bool :=
  searchPos secretMatchAt line

/-- The literal pattern `dangerouslySetInnerHTML` searched anywhere in
the line. -/
def dsiSearch (line : List Char) : Bool :=
  searchPos (fun s => (matchAt "dangerouslySetInnerHTML".data s).isSome) line

/-- The pattern `javascript\s*:` anchored at the current position. -/
def jsUrlMatchAt (l : List Char) : Bool :=
  match matchAt "javascript".data l with
  | none => false
  | some r =>
    match r.dropWhile isPySpace with
    | [] => false
    | c :: _ => c = ':'

/-- `javascript\s*:` searched anywhere in the line (case-sensitive: the
pattern is compiled without `re.IGNORECASE`). -/
def jsUrlSearch (line : List Char) : Bool :=
  searchPos jsUrlMatchAt line

/-- Embeds `JS_DANGEROUS_PATTERNS`: (compiled pattern, severity,
description), in table order. -/
def JS_DANGEROUS_PATTERNS : List ((List Char → Bool) × String × String) :=
  [(dsiSearch, "MEDIUM", "dangerouslySetInnerHTML can lead to XSS"),
   (jsUrlSearch, "HIGH", "javascript: URL is an XSS vector")]

/-- The secret check applied to one physical line: one MEDIUM finding
when the pattern is found, none otherwise. -/
def secretFindingsForLine (file : String) (lineno : Nat) (line : List Char) :
    List Finding :=
  if secretSearch line then
    [⟨file, lineno, "MEDIUM", "Possible hardcoded secret detected"⟩]
  else []

/-- The secret loop of `scan_python_file`: lines enumerated from 1. -/
def secretScan (file : String) (lines : List (List Char)) : List Finding :=
  (List.enumFrom 1 lines).flatMap (fun p => secretFindingsForLine file p.1 p.2)

/-- The inner `for pattern, severity, description in JS_DANGEROUS_PATTERNS`
loop of `scan_js_ts_file` on one line. -/
def jsPatternFindingsForLine (file : String) (lineno : Nat) (line : List Char) :
    List Finding :=
  JS_DANGEROUS_PATTERNS.flatMap (fun p =>
    if p.1 line then [⟨file, lineno, p.2.1, p.2.2⟩] else [])

/-- One line of `scan_js_ts_file`: the pattern table, then the secret
check. -/
def jsLineFindings (file : String) (lineno : Nat) (line : List Char) :
    List Finding :=
  jsPatternFindingsForLine file lineno line ++
    secretFindingsForLine file lineno line

/-- The line loop of `scan_js_ts_file`. -/
def jstsLinesScan (file : String) (lines : List (List Char)) : List Finding :=
  (List.enumFrom 1 lines).flatMap (fun p => jsLineFindings file p.1 p.2)

/-- One file as the dispatcher sees it: a `.py` file carries its parse
outcome (`none` when `ast.parse` raises `SyntaxError`) and its physical
lines; a `.js`/`.jsx`/`.ts`/`.tsx` file carries its lines. -/
inductive ScanFile where
  | py (path : String) (parsed : Option (List PyStmt)) (lines : List (List Char))
  | jsts (path : String) (lines : List (List Char))

/-- `scan_python_file` / `scan_js_ts_file`: for a Python file the AST
findings (skipped entirely on parse failure) followed by the per-line
secret findings; for a JS/TS file the per-line scan. -/
def scanFile : ScanFile → List Finding
  | .py p parsed lines =>
      (match parsed with
       | some body => moduleFindings p body
       | none => []) ++ secretScan p lines
  | .jsts p lines => jstsLinesScan p lines

/-- `scan_directory`: every routed file contributes its findings, in
walk order. -/
def scanDirectory (files : List ScanFile) : List Finding :=
  files.flatMap scanFile

/-- The observable outcome of `main`: the process exit code, and whether
the scan phase was reached at all. -/
structure MainResult where
  exitCode : Nat
  scanned : Bool
deriving DecidableEq

/-- The control flow of `main`: exit 2 before scanning when the argument
is not a directory; exit 0 on an empty result set; otherwise exit 1
exactly when the HIGH summary count is positive. -/
def runMain (isDirValid : Bool) (findings : List Finding) : MainResult :=
  if !isDirValid then ⟨2, false⟩
  else if findings = [] then ⟨0, true⟩
  else if 0 < summaryCount findings "HIGH" then ⟨1, true⟩
  else ⟨0, true⟩

/-- Python's `<` on single characters: code-point comparison. -/
def charLtB (a b : Char) : Bool :=
  decide (a < b)

/-- Python's `<` on strings as character lists: lexicographic by code
point. -/
def listCharLtB : List Char → List Char → Bool
  | _, [] => false
  | [], _ :: _ => true
  | a :: as, b :: bs => charLtB a b || (decide (a = b) && listCharLtB as bs)

/-- Python's `<` on strings. -/
def strLtB (a b : String) : Bool :=
  listCharLtB a.data b.data

/-- Python's `<=` on the sort key tuples
`(f.severity, f.file, f.line)`: lexicographic tuple comparison with
lexicographic string comparison on the components. -/
def findingLEb (a b : Finding) : Bool :=
  if strLtB a.severity b.severity then true
  else if strLtB b.severity a.severity then false
  else if strLtB a.file b.file then true
  else if strLtB b.file a.file then false
  else decide (a.line ≤ b.line)

/-- `sorted(results.findings, key=lambda f: (f.severity, f.file, f.line))`
(a stable merge sort, like Python's). -/
def sortFindings (fs : List Finding) : List Finding :=
  fs.mergeSort findingLEb

/-- Whether a character can be part of a Python identifier (used only to
state the claim-side whole-token reading of the secret pattern). -/
def isIdentChar (c : Char) : Bool :=
  c.isAlphanum || c = '_'

/-- Left word-boundary test for the claim-side matcher: start of line,
or a previous character that cannot extend an identifier. -/
def boundaryOk : Option Char → Bool
  | Option.none => true
  | Option.some c => !(isIdentChar c)

/-- Modelled from the claim wording, not from the source: the secret
pattern with the left-hand identifier required to be one of the five
keywords *as a whole token* — a match position must not be preceded by
an identifier character.  (The right boundary is enforced by the
`\s*=` continuation already.)  Used to compare the claim's reading
against the source matcher `secretSearch`. -/
def claimMatchFrom : Option Char → List Char → Bool
  | _, [] => false
  | prev, c :: rest =>
      (boundaryOk prev && secretMatchAt (c :: rest)) ||
        claimMatchFrom (Option.some c) rest

/-- Modelled from the claim wording: whole-token secret-line match. -/
def claimSecretLineMatch (line : List Char) : Bool :=
  claimMatchFrom Option.none line

/-! Helper lemmas. -/

theorem listCharLtB_lex : ∀ l₁ l₂ : List Char,
    listCharLtB l₁ l₂ = true ↔ List.Lex (· < ·) l₁ l₂ := by
  intro l₁
  induction l₁ with
  | nil =>
    intro l₂
    cases l₂ with
    | nil =>
      simp only [listCharLtB]
      exact iff_of_false (by simp) (List.Lex.not_nil_right _ _)
    | cons b bs =>
      simp only [listCharLtB]
      exact iff_of_true (by trivial) List.Lex.nil
  | cons a as ih =>
    intro l₂
    cases l₂ with
    | nil =>
      simp only [listCharLtB]
      exact iff_of_false (by simp) (List.Lex.not_nil_right _ _)
    | cons b bs =>
      simp only [listCharLtB, charLtB, Bool.or_eq_true, Bool.and_eq_true,
        decide_eq_true_eq, ih]
      constructor
      · rintro (h | ⟨rfl, h⟩)
        · exact List.Lex.rel h
        · exact List.Lex.cons h
      · intro h
        cases h with
        | cons h => exact Or.inr ⟨rfl, h⟩
        | rel h => exact Or.inl h

theorem strLtB_lex {a b : String} :
    strLtB a b = true ↔ List.Lex (· < ·) a.data b.data :=
  listCharLtB_lex a.data b.data

theorem strLtB_self_eq_false (a : String) : strLtB a a = false := by
  rw [Bool.eq_false_iff]
  intro h
  exact @irrefl (List Char) (List.Lex (· < ·)) _ a.data (strLtB_lex.mp h)

theorem strB_eq_of_not_lt {x y : String} (hxy : ¬ strLtB x y = true)
    (hyx : ¬ strLtB y x = true) : x = y := by
  rcases @trichotomous (List Char) (List.Lex (· < ·)) _ x.data y.data with
    h | h | h
  · exact absurd (strLtB_lex.mpr h) hxy
  · exact String.toList_inj.mp h
  · exact absurd (strLtB_lex.mpr h) hyx

theorem findingLEb_iff (a b : Finding) :
    findingLEb a b = true ↔
      (List.Lex (· < ·) a.severity.data b.severity.data ∨
        (a.severity = b.severity ∧
          (List.Lex (· < ·) a.file.data b.file.data ∨
            (a.file = b.file ∧ a.line ≤ b.line)))) := by
  unfold findingLEb
  split_ifs with h1 h2 h3 h4
  · exact iff_of_true rfl (Or.inl (strLtB_lex.mp h1))
  · refine iff_of_false (by simp) ?_
    rintro (h | ⟨e, -⟩)
    · exact @asymm (List Char) (List.Lex (· < ·)) _ _ _ (strLtB_lex.mp h2) h
    · rw [e] at h2
      exact absurd (strLtB_lex.mp h2) (@irrefl (List Char) (List.Lex (· < ·)) _ _)
  · have es : a.severity = b.severity := strB_eq_of_not_lt h1 h2
    exact iff_of_true rfl (Or.inr ⟨es, Or.inl (strLtB_lex.mp h3)⟩)
  · have es : a.severity = b.severity := strB_eq_of_not_lt h1 h2
    refine iff_of_false (by simp) ?_
    rintro (h | ⟨-, h | ⟨ef, -⟩⟩)
    · rw [es] at h
      exact absurd h (@irrefl (List Char) (List.Lex (· < ·)) _ _)
    · exact @asymm (List Char) (List.Lex (· < ·)) _ _ _ (strLtB_lex.mp h4) h
    · rw [ef] at h4
      exact absurd (strLtB_lex.mp h4) (@irrefl (List Char) (List.Lex (· < ·)) _ _)
  · have es : a.severity = b.severity := strB_eq_of_not_lt h1 h2
    have ef : a.file = b.file := strB_eq_of_not_lt h3 h4
    rw [decide_eq_true_eq]
    constructor
    · intro hl
      exact Or.inr ⟨es, Or.inr ⟨ef, hl⟩⟩
    · rintro (h | ⟨-, h | ⟨-, hl⟩⟩)
      · rw [es] at h
        exact absurd h (@irrefl (List Char) (List.Lex (· < ·)) _ _)
      · rw [ef] at h
        exact absurd h (@irrefl (List Char) (List.Lex (· < ·)) _ _)
      · exact hl

theorem findingLEb_trans (a b c : Finding) (h1 : findingLEb a b = true)
    (h2 : findingLEb b c = true) : findingLEb a c = true := by
  rw [findingLEb_iff] at h1 h2 ⊢
  rcases h1 with h1 | ⟨e1, h1⟩
  · rcases h2 with h2 | ⟨e2, h2⟩
    · exact Or.inl (Trans.trans h1 h2)
    · rw [← e2]
      exact Or.inl h1
  · rcases h2 with h2 | ⟨e2, h2⟩
    · rw [e1]
      exact Or.inl h2
    · refine Or.inr ⟨e1.trans e2, ?_⟩
      rcases h1 with h1 | ⟨f1, hl1⟩
      · rcases h2 with h2 | ⟨f2, _⟩
        · exact Or.inl (Trans.trans h1 h2)
        · rw [← f2]
          exact Or.inl h1
      · rcases h2 with h2 | ⟨f2, hl2⟩
        · rw [f1]
          exact Or.inl h2
        · exact Or.inr ⟨f1.trans f2, le_trans hl1 hl2⟩

theorem findingLEb_total (a b : Finding) :
    (findingLEb a b || findingLEb b a) = true := by
  rw [Bool.or_eq_true, findingLEb_iff, findingLEb_iff]
  rcases @trichotomous (List Char) (List.Lex (· < ·)) _
      a.severity.data b.severity.data with hs | hs | hs
  · exact Or.inl (Or.inl hs)
  · have es : a.severity = b.severity := String.toList_inj.mp hs
    rcases @trichotomous (List Char) (List.Lex (· < ·)) _
        a.file.data b.file.data with hf | hf | hf
    · exact Or.inl (Or.inr ⟨es, Or.inl hf⟩)
    · have ef : a.file = b.file := String.toList_inj.mp hf
      rcases Nat.le_total a.line b.line with hl | hl
      · exact Or.inl (Or.inr ⟨es, Or.inr ⟨ef, hl⟩⟩)
      · exact Or.inr (Or.inr ⟨es.symm, Or.inr ⟨ef.symm, hl⟩⟩)
    · exact Or.inr (Or.inr ⟨es.symm, Or.inl hf⟩)
  · exact Or.inr (Or.inl hs)

theorem walkChain_nonroot {r : PyExpr} (h : nonChainRoot r = true) :
    ∀ parts, walkChain r parts = parts := by
  intro parts
  cases r <;> simp [walkChain] <;> simp [nonChainRoot] at h

theorem resolveName_attr (v : PyExpr) (a : String) :
    resolveName (.attribute v a) = joinDotted (walkChain v [a]).reverse := rfl

theorem resolve_buildAttr_attr :
    ∀ (rest : List String) (v : PyExpr) (b : String),
      resolveName (buildAttr (.attribute v b) rest) =
        joinDotted (walkChain v (rest.reverse ++ [b])).reverse := by
  intro rest
  induction rest with
  | nil =>
    intro v b
    simp [buildAttr, resolveName]
  | cons c rs ih =>
    intro v b
    show resolveName (buildAttr (.attribute (.attribute v b) c) rs) = _
    rw [ih (.attribute v b) c]
    show joinDotted (walkChain v ((rs.reverse ++ [c]) ++ [b])).reverse = _
    simp [List.append_assoc]

theorem resolveName_buildAttr_name (x : String) (attrs : List String) :
    resolveName (buildAttr (.name x) attrs) = joinDotted (x :: attrs) := by
  cases attrs with
  | nil => rfl
  | cons a rest =>
    show resolveName (buildAttr (.attribute (.name x) a) rest) = _
    rw [resolve_buildAttr_attr rest (.name x) a]
    show joinDotted (walkChain (.name x) (rest.reverse ++ [a])).reverse = _
    simp [walkChain]

theorem resolveName_buildAttr_nonroot {r : PyExpr} (h : nonChainRoot r = true)
    (a : String) (rest : List String) :
    resolveName (buildAttr r (a :: rest)) = joinDotted (a :: rest) := by
  show resolveName (buildAttr (.attribute r a) rest) = _
  rw [resolve_buildAttr_attr rest r a, walkChain_nonroot h]
  simp

theorem exprFindings_buildAttr (file : String) :
    ∀ (attrs : List String) (r : PyExpr),
      exprFindings file (buildAttr r attrs) = exprFindings file r := by
  intro attrs
  induction attrs with
  | nil => intro r; rfl
  | cons a rest ih =>
    intro r
    show exprFindings file (buildAttr (.attribute r a) rest) = _
    rw [ih (.attribute r a)]
    rfl

theorem filterMap_if_replicate {α β : Type} (p : α → Bool) (c : β) :
    ∀ l : List α,
      l.filterMap (fun x => if p x then some c else none) =
        List.replicate (l.countP p) c := by
  intro l
  induction l with
  | nil => rfl
  | cons x xs ih =>
    by_cases h : p x
    · simp [List.filterMap_cons, h, List.countP_cons, ih, List.replicate_succ]
    · simp [List.filterMap_cons, h, List.countP_cons, ih]

theorem searchPos_of_suffix (p : List Char → Bool) :
    ∀ (pre rest : List Char), p rest = true → searchPos p (pre ++ rest) = true := by
  intro pre
  induction pre with
  | nil =>
    intro rest h
    cases rest with
    | nil => exact h
    | cons c cs => simp [searchPos, h]
  | cons c cs ih =>
    intro rest h
    simp [searchPos, ih rest h]

theorem ciMatchAt_append :
    ∀ (pat tok l2 : List Char), ciEqList pat tok = true →
      ciMatchAt pat (tok ++ l2) = some l2 := by
  intro pat
  induction pat with
  | nil =>
    intro tok l2 h
    cases tok with
    | nil => rfl
    | cons c cs => simp [ciEqList] at h
  | cons p ps ih =>
    intro tok l2 h
    cases tok with
    | nil => simp [ciEqList] at h
    | cons c cs =>
      simp only [ciEqList, Bool.and_eq_true, decide_eq_true_eq] at h
      simp [ciMatchAt, h.1, ih cs l2 h.2]

theorem dropWhile_run (q : Char → Bool) :
    ∀ (run : List Char) (d : Char) (r : List Char),
      (∀ c ∈ run, q c = true) → q d = false →
      (run ++ d :: r).dropWhile q = d :: r := by
  intro run
  induction run with
  | nil =>
    intro d r _ hd
    simp [List.dropWhile, hd]
  | cons c cs ih =>
    intro d r hall hd
    have hc : q c = true := hall c (by simp)
    simp only [List.cons_append, List.dropWhile, hc]
    exact ih d r (fun x hx => hall x (by simp [hx])) hd

theorem takeWhile_run (q : Char → Bool) :
    ∀ (run : List Char) (d : Char) (r : List Char),
      (∀ c ∈ run, q c = true) → q d = false →
      (run ++ d :: r).takeWhile q = run := by
  intro run
  induction run with
  | nil =>
    intro d r _ hd
    simp [List.takeWhile, hd]
  | cons c cs ih =>
    intro d r hall hd
    have hc : q c = true := hall c (by simp)
    simp only [List.cons_append, List.takeWhile, hc]
    rw [show cs.append (d :: r) = cs ++ d :: r from rfl]
    rw [ih d r (fun x hx => hall x (by simp [hx])) hd]

theorem quote_not_space {c : Char} (h : isQuoteCh c = true) :
    isPySpace c = false := by
  simp only [isQuoteCh, Bool.or_eq_true, decide_eq_true_eq] at h
  rcases h with h | h
  · subst h; decide
  · rw [Bool.eq_false_iff]
    intro hs
    simp only [isPySpace, Bool.or_eq_true, decide_eq_true_eq] at hs
    rcases hs with ((((h1 | h1) | h1) | h1) | h1) | h1 <;>
      (subst h1; exact absurd h (by decide))

theorem eq_not_space : isPySpace (Char.ofNat 61) = false := by decide

theorem secretBody_of_parts (body post : List Char) (q' : Char)
    (hbody : ∀ c ∈ body, isQuoteCh c = false) (hlen : 4 ≤ body.length)
    (hq' : isQuoteCh q' = true) :
    secretBody (body ++ q' :: post) = true := by
  unfold secretBody
  have hb : ∀ c ∈ body, (!(isQuoteCh c)) = true := fun c hc => by
    rw [hbody c hc]; rfl
  have hqf : (!(isQuoteCh q')) = false := by rw [hq']; rfl
  rw [takeWhile_run _ body q' post hb hqf, dropWhile_run _ body q' post hb hqf]
  simp [hlen, hq']

theorem secretAfterEq_of_parts (ws2 body post : List Char) (q q' : Char)
    (hws2 : ∀ c ∈ ws2, isPySpace c = true) (hq : isQuoteCh q = true)
    (hbody : ∀ c ∈ body, isQuoteCh c = false) (hlen : 4 ≤ body.length)
    (hq' : isQuoteCh q' = true) :
    secretAfterEq (ws2 ++ q :: (body ++ q' :: post)) = true := by
  unfold secretAfterEq
  rw [dropWhile_run isPySpace ws2 q _ hws2 (quote_not_space hq)]
  show (if isQuoteCh q then secretBody (body ++ q' :: post) else false) = true
  rw [if_pos hq]
  exact secretBody_of_parts body post q' hbody hlen hq'

theorem secretAfterKw_of_parts (ws1 ws2 body post : List Char) (q q' : Char)
    (hws1 : ∀ c ∈ ws1, isPySpace c = true)
    (hws2 : ∀ c ∈ ws2, isPySpace c = true) (hq : isQuoteCh q = true)
    (hbody : ∀ c ∈ body, isQuoteCh c = false) (hlen : 4 ≤ body.length)
    (hq' : isQuoteCh q' = true) :
    secretAfterKw (ws1 ++ Char.ofNat 61 :: (ws2 ++ q :: (body ++ q' :: post))) =
      true := by
  unfold secretAfterKw
  rw [dropWhile_run isPySpace ws1 (Char.ofNat 61) _ hws1 eq_not_space]
  show (if Char.ofNat 61 = Char.ofNat 61
      then secretAfterEq (ws2 ++ q :: (body ++ q' :: post)) else false) = true
  rw [if_pos rfl]
  exact secretAfterEq_of_parts ws2 body post q q' hws2 hq hbody hlen hq'

theorem secretMatchAt_of_parts (kw tok ws1 ws2 body post : List Char) (q q' : Char)
    (hkw : kw ∈ SECRET_KEYWORDS) (htok : ciEqList kw tok = true)
    (hws1 : ∀ c ∈ ws1, isPySpace c = true)
    (hws2 : ∀ c ∈ ws2, isPySpace c = true) (hq : isQuoteCh q = true)
    (hbody : ∀ c ∈ body, isQuoteCh c = false) (hlen : 4 ≤ body.length)
    (hq' : isQuoteCh q' = true) :
    secretMatchAt
      (tok ++ (ws1 ++ Char.ofNat 61 :: (ws2 ++ q :: (body ++ q' :: post)))) =
      true := by
  unfold secretMatchAt
  rw [List.any_eq_true]
  refine ⟨kw, hkw, ?_⟩
  rw [ciMatchAt_append kw tok _ htok]
  show secretAfterKw (ws1 ++ Char.ofNat 61 :: (ws2 ++ q :: (body ++ q' :: post))) =
    true
  exact secretAfterKw_of_parts ws1 ws2 body post q q' hws1 hws2 hq hbody hlen hq'

theorem secretSearch_of_parts
    (kw pre tok ws1 ws2 body post : List Char) (q q' : Char)
    (hkw : kw ∈ SECRET_KEYWORDS) (htok : ciEqList kw tok = true)
    (hws1 : ∀ c ∈ ws1, isPySpace c = true)
    (hws2 : ∀ c ∈ ws2, isPySpace c = true) (hq : isQuoteCh q = true)
    (hbody : ∀ c ∈ body, isQuoteCh c = false) (hlen : 4 ≤ body.length)
    (hq' : isQuoteCh q' = true) :
    secretSearch
      (pre ++ (tok ++ (ws1 ++ Char.ofNat 61 :: (ws2 ++ q :: (body ++ q' :: post))))) =
      true := by
  unfold secretSearch
  exact searchPos_of_suffix secretMatchAt pre _
    (secretMatchAt_of_parts kw tok ws1 ws2 body post q q' hkw htok hws1 hws2 hq
      hbody hlen hq')

/-! Claim theorems. -/

/-- C2: an invalid directory argument exits with code 2 and no scan is
attempted; with a valid directory the process exits 1 exactly when the
result set contains a HIGH finding, and 0 in every other case, the empty
result set included. -/
theorem c2_exit_code_policy (fs : List Finding) :
    runMain false fs = ⟨2, false⟩ ∧
    (runMain true fs).scanned = true ∧
    ((runMain true fs).exitCode = 1 ↔ ∃ f ∈ fs, f.severity = "HIGH") ∧
    ((runMain true fs).exitCode = 0 ↔ ¬ ∃ f ∈ fs, f.severity = "HIGH") := by
  have key : 0 < summaryCount fs "HIGH" ↔ ∃ f ∈ fs, f.severity = "HIGH" := by
    unfold summaryCount
    rw [List.countP_pos_iff]
    simp only [decide_eq_true_eq]
  have hrw : runMain true fs =
      if fs = [] then ⟨0, true⟩
      else if 0 < summaryCount fs "HIGH" then ⟨1, true⟩ else ⟨0, true⟩ := rfl
  refine ⟨rfl, ?_, ?_, ?_⟩
  · rw [hrw]; split_ifs <;> rfl
  · rw [hrw]
    split_ifs with h1 h2
    · subst h1
      simp
    · exact iff_of_true rfl (key.mp h2)
    · refine iff_of_false (by simp) (fun he => h2 (key.mpr he))
  · rw [hrw]
    split_ifs with h1 h2
    · subst h1
      simp
    · refine iff_of_false (by simp) (fun hn => hn (key.mp h2))
    · exact iff_of_true rfl (fun he => h2 (key.mpr he))

/-- C3: the reporter sorts ascending by the triple (severity, file,
line) with plain lexicographic string comparison, so "HIGH" < "LOW" <
"MEDIUM"; on the spec's three-finding example every discovery order
prints HIGH, then LOW, then MEDIUM. -/
theorem c3_report_sort_order (fs : List Finding) :
    List.Pairwise (fun a b => findingLEb a b = true) (sortFindings fs) ∧
    (sortFindings fs).Perm fs ∧
    (∀ a b : Finding,
      findingLEb a b = true ↔
        (List.Lex (· < ·) a.severity.data b.severity.data ∨
          (a.severity = b.severity ∧
            (List.Lex (· < ·) a.file.data b.file.data ∨
              (a.file = b.file ∧ a.line ≤ b.line))))) ∧
    (([⟨"b.py", 1, "LOW", "d1"⟩, ⟨"a.py", 5, "HIGH", "d2"⟩,
        ⟨"a.py", 2, "MEDIUM", "d3"⟩] : List Finding).permutations.all
      (fun l => sortFindings l =
        [⟨"a.py", 5, "HIGH", "d2"⟩, ⟨"b.py", 1, "LOW", "d1"⟩,
         ⟨"a.py", 2, "MEDIUM", "d3"⟩])) = true := by
  refine ⟨List.sorted_mergeSort findingLEb_trans findingLEb_total fs,
    List.mergeSort_perm fs findingLEb, findingLEb_iff, ?_⟩
  simp [List.permutations, List.permutationsAux, List.permutationsAux.rec,
    sortFindings, List.mergeSort, findingLEb, strLtB, listCharLtB, charLtB]

/-- C9: a Python file whose source fails to parse contributes no AST
findings, does not abort the directory scan, and its line-based secret
check still runs and can contribute findings. -/
theorem c9_parse_failure_policy (path : String) (lines : List (List Char))
    (a b : List ScanFile) :
    scanFile (.py path none lines) = secretScan path lines ∧
    scanDirectory (a ++ .py path none lines :: b) =
      scanDirectory a ++ (secretScan path lines ++ scanDirectory b) ∧
    scanFile (.py "bad.py" none ["PASSWORD = \"hunter42\"".data]) =
      [⟨"bad.py", 1, "MEDIUM", "Possible hardcoded secret detected"⟩] := by
  refine ⟨rfl, ?_, by decide⟩
  simp [scanDirectory, scanFile]

/-- C10: each line-oriented pattern contributes at most one finding per
physical line; a line with several occurrences of the same pattern still
yields exactly one finding for that pattern. -/
theorem c10_one_finding_per_pattern (file : String) (lineno : Nat)
    (line : List Char) :
    (secretFindingsForLine file lineno line).length ≤ 1 ∧
    (jsPatternFindingsForLine file lineno line).countP
        (fun f => f.description = "dangerouslySetInnerHTML can lead to XSS") ≤ 1 ∧
    (jsPatternFindingsForLine file lineno line).countP
        (fun f => f.description = "javascript: URL is an XSS vector") ≤ 1 ∧
    jsPatternFindingsForLine "a.js" 7 "javascript: x javascript: y".data =
      [⟨"a.js", 7, "HIGH", "javascript: URL is an XSS vector"⟩] ∧
    secretFindingsForLine "b.py" 9 "TOKEN = \"aaaa\" SECRET = \"bbbb\"".data =
      [⟨"b.py", 9, "MEDIUM", "Possible hardcoded secret detected"⟩] := by
  refine ⟨?_, ?_, ?_, by decide, by decide⟩
  · unfold secretFindingsForLine
    split_ifs <;> simp
  · unfold jsPatternFindingsForLine JS_DANGEROUS_PATTERNS
    by_cases h1 : dsiSearch line <;> by_cases h2 : jsUrlSearch line <;>
      simp +decide [h1, h2, List.countP_cons]
  · unfold jsPatternFindingsForLine JS_DANGEROUS_PATTERNS
    by_cases h1 : dsiSearch line <;> by_cases h2 : jsUrlSearch line <;>
      simp +decide [h1, h2, List.countP_cons]

/-- C1 counterexample: an attribute chain rooted in a call result does
NOT resolve to the empty name — `f().os.system(...)` resolves to
`"os.system"` (the root is simply dropped), and the dangerous-call rule
then fires on it. -/
theorem c1_counterexample :
    resolveName
        (.attribute (.attribute (.call (.name "f") [] [] 1) "os") "system") =
      "os.system" ∧
    callFindings "a.py"
        (.attribute (.attribute (.call (.name "f") [] [] 1) "os") "system")
        [] [] 2 =
      [⟨"a.py", 2, "HIGH", "os.system() is vulnerable to shell injection"⟩] :=
  ⟨by decide, by decide⟩

/-- C1 (amended): resolution joins the chain segments with `.` in
left-to-right order; with a simple-identifier root the result is
`root.a₁...aₙ`, with any other root the root is omitted and the result
is the non-empty join of the attribute segments alone (which can still
match the rule tables); only a callee that is neither an identifier nor
an attribute chain resolves to `""`, and the empty name matches no
rule. -/
theorem c1_amended_resolution :
    (∀ (x : String) (attrs : List String),
      resolveName (buildAttr (.name x) attrs) = joinDotted (x :: attrs)) ∧
    (∀ (r : PyExpr), nonChainRoot r = true →
      ∀ (a : String) (rest : List String),
        resolveName (buildAttr r (a :: rest)) = joinDotted (a :: rest)) ∧
    (∀ (file : String) (func : PyExpr) (args : List PyExpr)
        (kws : List (Option String × PyExpr)) (line : Nat),
      resolveName func = "" → callFindings file func args kws line = []) := by
  refine ⟨resolveName_buildAttr_name,
    fun r h a rest => resolveName_buildAttr_nonroot h a rest, ?_⟩
  intro file func args kws line h
  have h1 : lookupDanger "" = none := by decide
  have h2 : "" ∉ subprocessNames := by decide
  have h3 : ¬("" = "text" ∨ "" = "sqlalchemy.text") := by decide
  simp only [callFindings, h]
  rw [h1, if_neg h2, if_neg h3]
  rfl

/-- C1 witness: the amended resolution statement at concrete chains. -/
theorem c1_amended_resolution_witness :
    resolveName (buildAttr (.name "os") ["system"]) =
      joinDotted ["os", "system"] ∧
    resolveName (buildAttr (.call (.name "f") [] [] 1) ["os", "system"]) =
      joinDotted ["os", "system"] ∧
    callFindings "w.py" (.call (.name "g") [] [] 3) [] [] 4 = [] :=
  ⟨c1_amended_resolution.1 "os" ["system"],
   c1_amended_resolution.2.1 (.call (.name "f") [] [] 1) (by decide)
     "os" ["system"],
   c1_amended_resolution.2.2 "w.py" (.call (.name "g") [] [] 3) [] [] 4
     (by decide)⟩

theorem callFindings_danger (file : String) (func : PyExpr)
    (args : List PyExpr) (kws : List (Option String × PyExpr)) (line : Nat)
    (sev desc : String)
    (h1 : lookupDanger (resolveName func) = some (sev, desc))
    (h2 : resolveName func ∉ subprocessNames)
    (h3 : ¬(resolveName func = "text" ∨ resolveName func = "sqlalchemy.text")) :
    callFindings file func args kws line = [⟨file, line, sev, desc⟩] := by
  simp only [callFindings]
  rw [h1, if_neg h2, if_neg h3]
  simp

theorem lookupDanger_table {entry : String × String × String}
    (hmem : entry ∈ DANGEROUS_CALLS) : lookupDanger entry.1 = some entry.2 := by
  fin_cases hmem <;> decide

theorem danger_no_other_rule {entry : String × String × String}
    (hmem : entry ∈ DANGEROUS_CALLS) :
    entry.1 ∉ subprocessNames ∧
      ¬(entry.1 = "text" ∨ entry.1 = "sqlalchemy.text") := by
  fin_cases hmem <;> exact ⟨by decide, by decide⟩

/-- C4: for every entry of the dangerous-call table, a module holding
exactly one bare call whose dotted callee resolves to the entry's name
produces exactly one finding with the table's severity and description
at the call's line. -/
theorem c4_dangerous_call_table (file : String) (line : Nat) (x : String)
    (attrs : List String) (entry : String × String × String)
    (hmem : entry ∈ DANGEROUS_CALLS)
    (hname : joinDotted (x :: attrs) = entry.1) :
    moduleFindings file
        [.exprStmt (.call (buildAttr (.name x) attrs) [] [] line)] =
      [⟨file, line, entry.2.1, entry.2.2⟩] := by
  have hres : resolveName (buildAttr (.name x) attrs) = entry.1 := by
    rw [resolveName_buildAttr_name, hname]
  have hchild : exprFindings file (buildAttr (.name x) attrs) = [] := by
    rw [exprFindings_buildAttr]
    rfl
  simp only [moduleFindings, List.flatMap_cons, List.flatMap_nil, stmtFindings,
    exprFindings, exprListFindings, kwListFindings, hchild, List.append_nil]
  rw [callFindings_danger file _ [] [] line entry.2.1 entry.2.2
    (by rw [hres]; exact lookupDanger_table hmem)
    (by rw [hres]; exact (danger_no_other_rule hmem).1)
    (by rw [hres]; exact (danger_no_other_rule hmem).2)]

/-- C4 witness: the table theorem at the `eval` entry, line 3. -/
theorem c4_dangerous_call_table_witness :
    moduleFindings "w.py" [.exprStmt (.call (buildAttr (.name "eval") []) [] [] 3)] =
      [⟨"w.py", 3, "HIGH", "Use of eval() can execute arbitrary code"⟩] :=
  c4_dangerous_call_table "w.py" 3 "eval" []
    ("eval", "HIGH", "Use of eval() can execute arbitrary code")
    (by decide) rfl

/-- C5: on a call resolving to `subprocess.call` / `subprocess.run` /
`subprocess.Popen`, exactly one keyword `shell` bound to the literal
boolean `True` produces exactly one HIGH shell-injection finding at the
call's line, while a call with no such literal keyword (a variable or
other non-literal value, or no `shell` keyword at all) produces no
finding. -/
theorem c5_subprocess_shell_true (file : String) (func : PyExpr)
    (args : List PyExpr) (kws : List (Option String × PyExpr)) (line : Nat)
    (h : resolveName func ∈ subprocessNames) :
    (kws.countP isShellTrueKw = 1 →
      callFindings file func args kws line =
        [⟨file, line, "HIGH",
          resolveName func ++
            "() called with shell=True -- risk of shell injection"⟩]) ∧
    (kws.countP isShellTrueKw = 0 →
      callFindings file func args kws line = []) := by
  have hh : resolveName func = "subprocess.call" ∨
      resolveName func = "subprocess.run" ∨
      resolveName func = "subprocess.Popen" := by
    simpa [subprocessNames] using h
  have h1 : lookupDanger (resolveName func) = none := by
    rcases hh with h' | h' | h' <;> rw [h'] <;> decide
  have h3 : ¬(resolveName func = "text" ∨
      resolveName func = "sqlalchemy.text") := by
    rcases hh with h' | h' | h' <;> simp [h']
  constructor <;> intro hc <;>
    (simp only [callFindings]
     rw [h1, if_pos h, if_neg h3, filterMap_if_replicate, hc]
     simp)

/-- C5 witness: `subprocess.run` with a literal `shell=True` keyword,
and with `shell` bound to a variable. -/
theorem c5_subprocess_shell_true_witness :
    callFindings "w.py" (.attribute (.name "subprocess") "run") []
        [(some "shell", .const (.bool true))] 5 =
      [⟨"w.py", 5, "HIGH",
        resolveName (.attribute (.name "subprocess") "run") ++
          "() called with shell=True -- risk of shell injection"⟩] ∧
    callFindings "w.py" (.attribute (.name "subprocess") "run")
        [.name "cmd"] [(some "shell", .name "flag")] 6 = [] :=
  ⟨(c5_subprocess_shell_true "w.py" (.attribute (.name "subprocess") "run")
      [] [(some "shell", .const (.bool true))] 5 (by decide)).1 (by decide),
   (c5_subprocess_shell_true "w.py" (.attribute (.name "subprocess") "run")
      [.name "cmd"] [(some "shell", .name "flag")] 6 (by decide)).2 (by decide)⟩

/-- C6: on a call resolving to `text` or `sqlalchemy.text`, a first
positional argument that is an f-string produces exactly one HIGH
finding at the call's line; no positional arguments, or a first argument
of any other shape, produces none. -/
theorem c6_sql_text_fstring (file : String) (func : PyExpr)
    (args : List PyExpr) (kws : List (Option String × PyExpr)) (line : Nat)
    (h : resolveName func = "text" ∨ resolveName func = "sqlalchemy.text") :
    (∀ (vs : List PyExpr) (rest : List PyExpr),
      args = .joinedStr vs :: rest →
      callFindings file func args kws line =
        [⟨file, line, "HIGH",
          "SQL text() with f-string -- use bind parameters instead"⟩]) ∧
    (args = [] → callFindings file func args kws line = []) ∧
    (∀ (a : PyExpr) (rest : List PyExpr), args = a :: rest →
      (∀ vs, a ≠ .joinedStr vs) →
      callFindings file func args kws line = []) := by
  have h1 : lookupDanger (resolveName func) = none := by
    rcases h with h' | h' <;> rw [h'] <;> decide
  have h2 : resolveName func ∉ subprocessNames := by
    rcases h with h' | h' <;> simp [subprocessNames, h']
  refine ⟨?_, ?_, ?_⟩
  · intro vs rest ha
    subst ha
    simp only [callFindings]
    rw [h1, if_neg h2, if_pos h]
    simp
  · intro ha
    subst ha
    simp only [callFindings]
    rw [h1, if_neg h2, if_pos h]
    simp
  · intro a rest ha hne
    subst ha
    simp only [callFindings]
    rw [h1, if_neg h2, if_pos h]
    cases a
    case joinedStr vs => exact absurd rfl (hne vs)
    all_goals rfl

/-- C6 witness: `text` called on an f-string first argument, with no
arguments, and with a plain string first argument. -/
theorem c6_sql_text_fstring_witness :
    callFindings "w.py" (.name "text") [.joinedStr [.name "x"]] [] 8 =
      [⟨"w.py", 8, "HIGH",
        "SQL text() with f-string -- use bind parameters instead"⟩] ∧
    callFindings "w.py" (.name "text") [] [] 9 = [] ∧
    callFindings "w.py" (.name "text")
        [.const (.str "SELECT * FROM t")] [] 10 = [] :=
  ⟨(c6_sql_text_fstring "w.py" (.name "text") [.joinedStr [.name "x"]] [] 8
      (by decide)).1 [.name "x"] [] rfl,
   (c6_sql_text_fstring "w.py" (.name "text") [] [] 9 (by decide)).2.1 rfl,
   (c6_sql_text_fstring "w.py" (.name "text")
      [.const (.str "SELECT * FROM t")] [] 10 (by decide)).2.2
     (.const (.str "SELECT * FROM t")) [] rfl (fun vs => by simp)⟩

/-- C7 counterexample: the claim requires a whole-token identifier
(`claimSecretLineMatch`), but the source pattern has no word boundary —
the line `MY_API_KEY = "abcd1234"`, whose left-hand identifier is
`MY_API_KEY` and so is none of the five keywords as a whole token, still
produces the secret finding. -/
theorem c7_counterexample :
    claimSecretLineMatch "MY_API_KEY = \"abcd1234\"".data = false ∧
    secretFindingsForLine "m.py" 7 "MY_API_KEY = \"abcd1234\"".data =
      [⟨"m.py", 7, "MEDIUM", "Possible hardcoded secret detected"⟩] :=
  ⟨by decide, by decide⟩

/-- C7 (amended): a line yields exactly one MEDIUM
"Possible hardcoded secret detected" finding at its 1-based line number
whenever one of API_KEY / SECRET / PASSWORD / TOKEN / PRIVATE_KEY occurs
case-insensitively as a substring (no word boundary: an identifier that
merely ends in a keyword also matches), followed by optional whitespace,
`=`, optional whitespace and a quoted run of at least four non-quote
characters; the spec's short-value line `API_KEY = "ab"` yields no
finding. -/
theorem c7_hardcoded_secret_line (file : String) (lineno : Nat)
    (pre tok ws1 ws2 body post : List Char) (q q' : Char) (kw : List Char)
    (hkw : kw ∈ SECRET_KEYWORDS) (htok : ciEqList kw tok = true)
    (hws1 : ∀ c ∈ ws1, isPySpace c = true)
    (hws2 : ∀ c ∈ ws2, isPySpace c = true)
    (hq : isQuoteCh q = true) (hq' : isQuoteCh q' = true)
    (hbody : ∀ c ∈ body, isQuoteCh c = false) (hlen : 4 ≤ body.length) :
    secretFindingsForLine file lineno
        (pre ++ (tok ++ (ws1 ++ Char.ofNat 61 ::
          (ws2 ++ q :: (body ++ q' :: post))))) =
      [⟨file, lineno, "MEDIUM", "Possible hardcoded secret detected"⟩] ∧
    secretFindingsForLine file lineno "API_KEY = \"ab\"".data = [] := by
  constructor
  · unfold secretFindingsForLine
    rw [if_pos (secretSearch_of_parts kw pre tok ws1 ws2 body post q q' hkw
      htok hws1 hws2 hq hbody hlen hq')]
  · have hs : secretSearch "API_KEY = \"ab\"".data = false := by decide
    unfold secretFindingsForLine
    rw [hs]
    rfl

/-- C7 witness: the amended statement at the concrete line
`MY_api_key = "abcd1234"` (keyword matched case-insensitively, preceded
by extra identifier text), plus the short-value line. -/
theorem c7_hardcoded_secret_line_witness :
    secretFindingsForLine "x.py" 3
        ("MY_".data ++ ("api_key".data ++ (" ".data ++ Char.ofNat 61 ::
          (" ".data ++ Char.ofNat 34 ::
            ("abcd1234".data ++ Char.ofNat 34 :: [])))))  =
      [⟨"x.py", 3, "MEDIUM", "Possible hardcoded secret detected"⟩] ∧
    secretFindingsForLine "x.py" 3 "API_KEY = \"ab\"".data = [] :=
  c7_hardcoded_secret_line "x.py" 3 "MY_".data "api_key".data
    " ".data " ".data "abcd1234".data [] (Char.ofNat 34) (Char.ofNat 34)
    "API_KEY".data (by decide) (by decide) (by decide) (by decide)
    (by decide) (by decide) (by decide) (by decide)

/-- C8: a JS/TS line containing both `dangerouslySetInnerHTML` and a
`javascript:` URL prefix produces exactly the two pattern-table
findings, a MEDIUM then a HIGH, in table order, both at that line's
number. -/
theorem c8_js_two_patterns (file : String) (lineno : Nat) (line : List Char)
    (h1 : dsiSearch line = true) (h2 : jsUrlSearch line = true) :
    jsPatternFindingsForLine file lineno line =
      [⟨file, lineno, "MEDIUM", "dangerouslySetInnerHTML can lead to XSS"⟩,
       ⟨file, lineno, "HIGH", "javascript: URL is an XSS vector"⟩] := by
  unfold jsPatternFindingsForLine JS_DANGEROUS_PATTERNS
  simp [h1, h2]

/-- C8 witness: a concrete line containing both patterns. -/
theorem c8_js_two_patterns_witness :
    jsPatternFindingsForLine "a.tsx" 4
        "x.dangerouslySetInnerHTML=javascript:y".data =
      [⟨"a.tsx", 4, "MEDIUM", "dangerouslySetInnerHTML can lead to XSS"⟩,
       ⟨"a.tsx", 4, "HIGH", "javascript: URL is an XSS vector"⟩] :=
  c8_js_two_patterns "a.tsx" 4 "x.dangerouslySetInnerHTML=javascript:y".data
    (by decide) (by decide)
